import Mathlib

/-
Verification of the apiauth middleware of xmidt-org/skeleton.

The development shallowly embeds the Go package `internal/apiauth`:
JWK keys become a record carrying the fields the package inspects
(key type, EC raw form, declared algorithm, key id, and an abstract
identifier for the key material), key sets become lists of keys in
fetch order, and fallible Go functions become Except-valued Lean
functions.  Each definition is a direct translation of the Go source
it is named after.
-/

namespace Skeleton

/-- Signature algorithms from the jwa package that apiauth mentions. -/
inductive SignatureAlgorithm
  | RS256 | RS384 | RS512 | PS256 | PS384 | PS512
  | ES256 | ES384 | ES512 | EdDSA
  deriving DecidableEq, Repr

/-- The string form of a signature algorithm, as produced by
jwa.SignatureAlgorithm and stored in a key's alg field by Set. -/
def SignatureAlgorithm.toString : SignatureAlgorithm → String
  | .RS256 => "RS256"
  | .RS384 => "RS384"
  | .RS512 => "RS512"
  | .PS256 => "PS256"
  | .PS384 => "PS384"
  | .PS512 => "PS512"
  | .ES256 => "ES256"
  | .ES384 => "ES384"
  | .ES512 => "ES512"
  | .EdDSA => "EdDSA"

/-- Key types from the jwa package; otherType covers every key type
other than the three the switch in keyToAlgs handles. -/
inductive KeyType
  | RSA | OKP | EC
  | otherType (name : String)
  deriving DecidableEq, Repr

/-- Elliptic curves; otherCurve covers curves other than the three
handled by the curve switches in keyToAlgs. -/
inductive Curve
  | P256 | P384 | P521
  | otherCurve (name : String)
  deriving DecidableEq, Repr

/-- The raw form of an EC key as recovered by key.Raw: an ecdsa public
key, an ecdsa private key, or some other raw type (the default branch
of the type switch in keyToAlgs). -/
inductive ECRaw
  | publicKey (curve : Curve)
  | privateKey (curve : Curve)
  | otherRaw
  deriving DecidableEq, Repr

/-- The curve of an EC raw form, when it is an ecdsa key. -/
def ECRaw.curve? : ECRaw → Option Curve
  | .publicKey c => some c
  | .privateKey c => some c
  | .otherRaw => none

/-- A jwk key as apiauth sees it.  alg is Algorithm().String() (empty
when the key declares no algorithm), kid is the key id, and material
abstracts the cryptographic key material; Clone copies every field.
ecRaw is the result of key.Raw for EC keys: none models a Raw failure. -/
structure Key where
  keyType : KeyType
  ecRaw : Option ECRaw
  alg : String
  kid : String
  material : Nat
  deriving DecidableEq, Repr

/-- Errors out of keyToAlgs: the error returned by key.Raw, or the
"unsupported key type" error built at the end of the function. -/
inductive KeyError
  | rawFailure
  | unsupportedKeyType (kt : KeyType)
  deriving DecidableEq, Repr

/-- Translation of keyToAlgs (internal/apiauth/mapAlgs.go): the set of
signature algorithms a key supports, determined by its key type and,
for EC keys, its curve.  Both ecdsa public and private raw keys map by
curve; any unhandled curve or raw type, and any key type other than
RSA, OKP and EC, falls through to the unsupported-key-type error. -/
def keyToAlgs (key : Key) : Except KeyError (List SignatureAlgorithm) :=
  match key.keyType with
  | .RSA => Except.ok [.RS256, .RS384, .RS512, .PS256, .PS384, .PS512]
  | .OKP => Except.ok [.EdDSA]
  | .EC =>
    match key.ecRaw with
    | none => Except.error KeyError.rawFailure
    | some (ECRaw.publicKey Curve.P256) => Except.ok [.ES256]
    | some (ECRaw.publicKey Curve.P384) => Except.ok [.ES384]
    | some (ECRaw.publicKey Curve.P521) => Except.ok [.ES512]
    | some (ECRaw.privateKey Curve.P256) => Except.ok [.ES256]
    | some (ECRaw.privateKey Curve.P384) => Except.ok [.ES384]
    | some (ECRaw.privateKey Curve.P521) => Except.ok [.ES512]
    | some _ => Except.error (KeyError.unsupportedKeyType KeyType.EC)
  | kt => Except.error (KeyError.unsupportedKeyType kt)

/-- Translation of the post-fetch function returned by
mapMissingAlgorithms (internal/apiauth/mapAlgs.go), on key sets in
iteration order.  A key whose alg string is non-empty is added to the
new set as is; a key with no algorithm is expanded through keyToAlgs
into one clone per inferred algorithm, each clone differing from the
source key only in its alg field.  Any error aborts the whole pass:
the Go function returns the original set together with the error, and
the Except error branch carries that error. -/
def mapMissingAlgorithms : List Key → Except KeyError (List Key)
  | [] => Except.ok []
  | key :: rest =>
    if key.alg ≠ "" then
      match mapMissingAlgorithms rest with
      | Except.error e => Except.error e
      | Except.ok tail => Except.ok (key :: tail)
    else
      match keyToAlgs key with
      | Except.error e => Except.error e
      | Except.ok algs =>
        match mapMissingAlgorithms rest with
        | Except.error e => Except.error e
        | Except.ok tail =>
          Except.ok (algs.map (fun alg => { key with alg := alg.toString }) ++ tail)

/-- The bascule error values apiauth returns from its validators,
together with the package's own ErrInvalidConfig. -/
inductive AuthError
  | badCredentials
  | unauthorized
  | invalidConfig
  deriving DecidableEq, Repr

/-- A bascule token as the two validators type-assert it: a basic
credential pair, jwt claims carrying the capabilities GetCapabilities
extracts, or any other token shape. -/
inductive Token
  | basic (userName password : String)
  | jwtClaims (capabilities : List String)
  | otherToken
  deriving DecidableEq, Repr

/-- The Basic configuration: the username to password map, in
iteration order.  The Config field below is an Option so that a nil Go
map and an empty one stay distinct, as reflect.DeepEqual keeps them. -/
abbrev Basic := List (String × String)

/-- Abstraction of the arrangehttp.ClientConfig carried by Provider:
apiauth never inspects it beyond passing it on and comparing the whole
Config for deep equality, so only its equality matters here. -/
structure ClientConfig where
  fields : List (String × String)
  deriving DecidableEq, Repr

/-- Translation of the Provider configuration struct.  The refresh
interval is a duration in nanoseconds. -/
structure Provider where
  url : String
  refreshInterval : Int
  httpClient : ClientConfig
  disableAutoAddMissingAlgorithm : Bool
  deriving DecidableEq, Repr

/-- Translation of the JWT configuration struct. -/
structure JWT where
  keyProvider : Provider
  requiredServiceCapabilities : List String
  deriving DecidableEq, Repr

/-- Translation of the Config struct. -/
structure Config where
  disable : Bool
  basic : Option Basic
  jwt : JWT
  deriving DecidableEq, Repr

/-- The zero value of Config in Go: every field at its zero value
(nil basic map, empty url, zero interval, and so on). -/
def Config.zero : Config :=
  { disable := false
    basic := none
    jwt :=
      { keyProvider :=
          { url := ""
            refreshInterval := 0
            httpClient := { fields := [] }
            disableAutoAddMissingAlgorithm := false }
        requiredServiceCapabilities := [] } }

/-- The Config the validate option compares against when disable is
set: the zero value with only Disable true. -/
def Config.disabledOnly : Config :=
  { Config.zero with disable := true }

/-- Translation of the validate option (internal/apiauth/options.go):
when Disable is set, the whole Config must deep-equal the
disabled-only value; a Config deep-equal to the zero value is also
rejected.  none means the option applied without error. -/
def validateConfig (c : Config) : Option AuthError :=
  if c.disable ∧ c ≠ Config.disabledOnly then
    some AuthError.invalidConfig
  else if c = Config.zero then
    some AuthError.invalidConfig
  else
    none

/-- The two authentication schemes New can install. -/
inductive Scheme
  | basicScheme
  | jwtScheme
  deriving DecidableEq, Repr

/-- The middleware selection performed by New (auth.go): the basic
middleware is installed when the Basic map is non-nil, and then
overwritten by the jwt middleware when the key provider URL is
non-empty.  The middleware value itself is library code; the model
tracks which scheme the installed middleware implements, none when
neither branch ran. -/
def installedScheme (c : Config) : Option Scheme :=
  let m : Option Scheme := none
  let m := if c.basic ≠ none then some Scheme.basicScheme else m
  let m := if c.jwt.keyProvider.url ≠ "" then some Scheme.jwtScheme else m
  m

/-- Translation of the configuration-dependent behavior of New
(auth.go): the options run first and the appended validate option
rejects invalid configurations with ErrInvalidConfig; otherwise the
middleware selection runs.  Failures while building a middleware
(network or library failures inside Basic.middleware or
JWT.middleware) are outside the model; they never produce
ErrInvalidConfig. -/
def New (c : Config) : Except AuthError (Option Scheme) :=
  match validateConfig c with
  | some e => Except.error e
  | none => Except.ok (installedScheme c)

/-- Translation of JWT.valid (auth.go): reject any token that is not
jwt claims; accept when no capabilities are required; otherwise scan
the token's capabilities against the required ones and accept on the
first match, else ErrUnauthorized.  none means the validator accepted. -/
def JWT.valid (cfg : JWT) (token : Token) : Option AuthError :=
  match token with
  | Token.jwtClaims capabilities =>
    if cfg.requiredServiceCapabilities = [] then
      none
    else if capabilities.any
        (fun capability => cfg.requiredServiceCapabilities.any
          (fun serviceCapability => capability = serviceCapability)) then
      none
    else
      some AuthError.unauthorized
  | _ => some AuthError.badCredentials

/-- Translation of Basic.valid (auth.go): a token that is not a basic
token, or whose username and password pair matches no entry of the
configured table, yields ErrBadCredentials; a matching pair is
accepted.  none means the validator accepted. -/
def Basic.valid (cfg : Basic) (token : Token) : Option AuthError :=
  match token with
  | Token.basic u p =>
    if cfg.any (fun entry => u = entry.1 ∧ p = entry.2) then
      none
    else
      some AuthError.badCredentials
  | _ => some AuthError.badCredentials

/-- An http request, reduced to the data this layer can inspect. -/
structure Request where
  authorization : Option String
  deriving DecidableEq, Repr

/-- An http response: the status code this layer or the protected
handler writes. -/
structure Response where
  code : Nat
  deriving DecidableEq, Repr

/-- An http handler. -/
def Handler := Request → Response

/-- A bascule middleware, abstracted to how it wraps a handler. -/
structure Middleware where
  wrap : Handler → Handler

/-- The Auth struct of apiauth: the installed middleware, if any, and
the configuration. -/
structure Auth where
  middleware : Option Middleware
  config : Config

/-- Translation of Auth.Then (auth.go): with no middleware the handler
is returned as is, otherwise the middleware wraps it. -/
def Auth.Then (auth : Auth) (h : Handler) : Handler :=
  match auth.middleware with
  | none => h
  | some m => m.wrap h

/-- Transport and parse failures of a key-set fetch. -/
inductive FetchError
  | transport
  | parse
  deriving DecidableEq, Repr

/-- The post-fetch processing Provider.toKeySet registers: the
post-fetch function of mapMissingAlgorithms runs unless
DisableAutoAddMissingAlgorithm is set, in which case the fetched set
passes through untouched. -/
def postProcess (disableAuto : Bool) (ks : List Key) : Except KeyError (List Key) :=
  if disableAuto then Except.ok ks else mapMissingAlgorithms ks

/-- Why one refresh attempt can fail: the fetch itself, or the
post-fetch processing. -/
inductive RefreshError
  | fetchFailed (e : FetchError)
  | postFailed (e : KeyError)
  deriving DecidableEq, Repr

/-- The outcome of one fetch plus post-fetch pass, combining a fetch
result with postProcess. -/
def refreshResult (disableAuto : Bool) (fetched : Except FetchError (List Key)) :
    Except RefreshError (List Key) :=
  match fetched with
  | Except.error e => Except.error (RefreshError.fetchFailed e)
  | Except.ok ks =>
    match postProcess disableAuto ks with
    | Except.error e => Except.error (RefreshError.postFailed e)
    | Except.ok mapped => Except.ok mapped

/-- Modelled from the spec: the served key-set snapshot held by the
jwk cache that Provider.toKeySet builds.  The cache object itself is
library code outside this repository; per the spec it serves the
latest good snapshot, none before any successful fetch. -/
structure ProviderState where
  snapshot : Option (List Key)
  deriving DecidableEq, Repr

/-- Modelled from the spec: the snapshot readers observe, as
currentKeySet-style reads return it. -/
def currentKeySet (st : ProviderState) : Option (List Key) :=
  st.snapshot

/-- Modelled from the spec: one refresh cycle of the key provider.
The fetch and post-fetch processing come from the source (refreshResult
above); the swap discipline is the spec's: the served snapshot is
replaced only when the whole attempt succeeded, and kept as is on any
failure. -/
def refreshStep (st : ProviderState) (disableAuto : Bool)
    (fetched : Except FetchError (List Key)) : ProviderState :=
  match refreshResult disableAuto fetched with
  | Except.error _ => st
  | Except.ok ks => { snapshot := some ks }

/-- A sample RSA key with no declared algorithm, for concrete runs. -/
def goodRsaKey : Key :=
  { keyType := KeyType.RSA, ecRaw := none, alg := "", kid := "good", material := 1 }

/-- A sample symmetric key with no declared algorithm: its key type is
neither RSA, OKP nor EC, so inference rejects it. -/
def badOctKey : Key :=
  { keyType := KeyType.otherType "oct", ecRaw := none, alg := "", kid := "bad", material := 2 }

/-- A sample key provider configuration, for concrete runs. -/
def sampleProvider : Provider :=
  { url := "https://issuer.example/keys"
    refreshInterval := 900
    httpClient := { fields := [] }
    disableAutoAddMissingAlgorithm := false }

/-- The mapping pass distributes over appended key sets: the first
error wins, and on success the outputs concatenate in order. -/
theorem mapMissingAlgorithms_append (xs ys : List Key) :
    mapMissingAlgorithms (xs ++ ys) =
      (mapMissingAlgorithms xs).bind
        (fun oxs => (mapMissingAlgorithms ys).map (fun oys => oxs ++ oys)) := by
  induction xs with
  | nil =>
    cases hy : mapMissingAlgorithms ys <;>
      simp [mapMissingAlgorithms, hy, Except.bind, Except.map]
  | cons head rest ih =>
    rw [List.cons_append]
    by_cases h : head.alg ≠ ""
    · cases hr : mapMissingAlgorithms rest with
      | error e =>
        simp [mapMissingAlgorithms, h, ih, hr, Except.bind]
      | ok tail =>
        cases hy : mapMissingAlgorithms ys with
        | error e =>
          simp [mapMissingAlgorithms, h, ih, hr, hy, Except.bind, Except.map]
        | ok oys =>
          simp [mapMissingAlgorithms, h, ih, hr, hy, Except.bind, Except.map]
    · push_neg at h
      cases hk : keyToAlgs head with
      | error e =>
        simp [mapMissingAlgorithms, h, hk, Except.bind]
      | ok algs =>
        cases hr : mapMissingAlgorithms rest with
        | error e =>
          simp [mapMissingAlgorithms, h, hk, ih, hr, Except.bind]
        | ok tail =>
          cases hy : mapMissingAlgorithms ys with
          | error e =>
            simp [mapMissingAlgorithms, h, hk, ih, hr, hy, Except.bind, Except.map]
          | ok oys =>
            simp [mapMissingAlgorithms, h, hk, ih, hr, hy, Except.bind, Except.map]

/-- C5: algorithm inference on a key lacking a declared algorithm is
determined by key type and, for EC keys, by the curve of the raw key:
P-256 gives ES256, P-384 gives ES384, P-521 gives ES512; an EC key on
any other curve is an unsupported-key-type error, as is any key type
other than RSA, OKP and EC; an OKP key gives exactly EdDSA. -/
theorem keyToAlgs_inference (k : Key) (r : ECRaw) :
    (k.keyType = KeyType.EC → k.ecRaw = some r → r.curve? = some Curve.P256 →
      keyToAlgs k = Except.ok [SignatureAlgorithm.ES256]) ∧
    (k.keyType = KeyType.EC → k.ecRaw = some r → r.curve? = some Curve.P384 →
      keyToAlgs k = Except.ok [SignatureAlgorithm.ES384]) ∧
    (k.keyType = KeyType.EC → k.ecRaw = some r → r.curve? = some Curve.P521 →
      keyToAlgs k = Except.ok [SignatureAlgorithm.ES512]) ∧
    (∀ s, k.keyType = KeyType.EC → k.ecRaw = some r →
      r.curve? = some (Curve.otherCurve s) →
      keyToAlgs k = Except.error (KeyError.unsupportedKeyType KeyType.EC)) ∧
    (∀ s, k.keyType = KeyType.otherType s →
      keyToAlgs k = Except.error (KeyError.unsupportedKeyType (KeyType.otherType s))) ∧
    (k.keyType = KeyType.OKP → keyToAlgs k = Except.ok [SignatureAlgorithm.EdDSA]) := by
  obtain ⟨kt, raw, alg, kid, mat⟩ := k
  refine ⟨?_, ?_, ?_, ?_, ?_, ?_⟩
  · intro hkt hraw hcurve
    cases hkt; cases hraw
    cases r <;> simp_all [ECRaw.curve?, keyToAlgs]
  · intro hkt hraw hcurve
    cases hkt; cases hraw
    cases r <;> simp_all [ECRaw.curve?, keyToAlgs]
  · intro hkt hraw hcurve
    cases hkt; cases hraw
    cases r <;> simp_all [ECRaw.curve?, keyToAlgs]
  · intro s hkt hraw hcurve
    cases hkt; cases hraw
    cases r <;> simp_all [ECRaw.curve?, keyToAlgs]
  · intro s hkt
    cases hkt
    simp [keyToAlgs]
  · intro hkt
    cases hkt
    simp [keyToAlgs]

/-- Witness for keyToAlgs_inference at a concrete EC key on P-256. -/
theorem keyToAlgs_inference_witness :
    keyToAlgs { keyType := KeyType.EC, ecRaw := some (ECRaw.publicKey Curve.P256),
                alg := "", kid := "k1", material := 0 } =
      Except.ok [SignatureAlgorithm.ES256] :=
  (keyToAlgs_inference _ (ECRaw.publicKey Curve.P256)).1 rfl rfl rfl

/-- C4: an RSA key with no declared algorithm is replaced by exactly
six entries, one per algorithm among RS256, RS384, RS512, PS256,
PS384 and PS512, each entry a clone of the source key differing from
it only in the alg field (same key id, key material, key type and raw
form), and distinct algorithms give distinct entries. -/
theorem mapMissingAlgorithms_rsa_expansion (k : Key) (pre post outPre outPost : List Key)
    (hkt : k.keyType = KeyType.RSA) (halg : k.alg = "")
    (hpre : mapMissingAlgorithms pre = Except.ok outPre)
    (hpost : mapMissingAlgorithms post = Except.ok outPost) :
    mapMissingAlgorithms (pre ++ k :: post) =
      Except.ok
        (outPre ++
          ([SignatureAlgorithm.RS256, SignatureAlgorithm.RS384, SignatureAlgorithm.RS512,
            SignatureAlgorithm.PS256, SignatureAlgorithm.PS384, SignatureAlgorithm.PS512].map
            (fun a => { k with alg := a.toString })) ++ outPost) ∧
    ([SignatureAlgorithm.RS256, SignatureAlgorithm.RS384, SignatureAlgorithm.RS512,
      SignatureAlgorithm.PS256, SignatureAlgorithm.PS384, SignatureAlgorithm.PS512].map
        (fun a => { k with alg := a.toString })).length = 6 ∧
    (∀ a : SignatureAlgorithm,
      ({ k with alg := a.toString } : Key).kid = k.kid ∧
      ({ k with alg := a.toString } : Key).material = k.material ∧
      ({ k with alg := a.toString } : Key).keyType = k.keyType ∧
      ({ k with alg := a.toString } : Key).ecRaw = k.ecRaw) ∧
    (∀ a b : SignatureAlgorithm,
      ({ k with alg := a.toString } : Key) = { k with alg := b.toString } → a = b) := by
  refine ⟨?_, rfl, fun a => ⟨rfl, rfl, rfl, rfl⟩, ?_⟩
  · have hcons : mapMissingAlgorithms (k :: post) =
        Except.ok
          (([SignatureAlgorithm.RS256, SignatureAlgorithm.RS384, SignatureAlgorithm.RS512,
             SignatureAlgorithm.PS256, SignatureAlgorithm.PS384, SignatureAlgorithm.PS512].map
            (fun a => { k with alg := a.toString })) ++ outPost) := by
      obtain ⟨kt, raw, alg, kid, mat⟩ := k
      cases hkt
      cases halg
      simp [mapMissingAlgorithms, keyToAlgs, hpost]
    rw [mapMissingAlgorithms_append, hpre, hcons]
    simp [Except.bind, Except.map]
  · intro a b h
    have h2 : SignatureAlgorithm.toString a = SignatureAlgorithm.toString b :=
      congrArg Key.alg h
    revert h2
    cases a <;> cases b <;> decide

/-- Witness for mapMissingAlgorithms_rsa_expansion: the concrete RSA
key with no algorithm expands into the six expected clones. -/
theorem mapMissingAlgorithms_rsa_expansion_witness :
    mapMissingAlgorithms [goodRsaKey] =
      Except.ok
        [{ goodRsaKey with alg := "RS256" }, { goodRsaKey with alg := "RS384" },
         { goodRsaKey with alg := "RS512" }, { goodRsaKey with alg := "PS256" },
         { goodRsaKey with alg := "PS384" }, { goodRsaKey with alg := "PS512" }] := by
  have h := (mapMissingAlgorithms_rsa_expansion goodRsaKey [] [] [] [] rfl rfl rfl rfl).1
  simpa [SignatureAlgorithm.toString] using h

/-- C6: a key that already declares a non-empty algorithm passes
through the mapping unchanged and contributes exactly one entry, in
place, between the outputs of the keys around it; it is never cloned,
expanded, or put through inference. -/
theorem mapMissingAlgorithms_tagged_passthrough (k : Key)
    (pre post outPre outPost : List Key) (h : k.alg ≠ "")
    (hpre : mapMissingAlgorithms pre = Except.ok outPre)
    (hpost : mapMissingAlgorithms post = Except.ok outPost) :
    mapMissingAlgorithms (pre ++ k :: post) =
      Except.ok (outPre ++ k :: outPost) := by
  have hcons : mapMissingAlgorithms (k :: post) = Except.ok (k :: outPost) := by
    simp [mapMissingAlgorithms, h, hpost]
  rw [mapMissingAlgorithms_append, hpre, hcons]
  simp [Except.bind, Except.map]

/-- Witness for mapMissingAlgorithms_tagged_passthrough: an
already-tagged RSA key is emitted unchanged. -/
theorem mapMissingAlgorithms_tagged_passthrough_witness :
    mapMissingAlgorithms [{ goodRsaKey with alg := "RS256" }] =
      Except.ok [{ goodRsaKey with alg := "RS256" }] := by
  have h := mapMissingAlgorithms_tagged_passthrough
    { goodRsaKey with alg := "RS256" } [] [] [] [] (by decide) rfl rfl
  simpa using h

/-- C2 counterexample: a fetched key set holding a key of unsupported
key type (oct, no declared algorithm) followed by a perfectly good RSA
key makes the whole post-fetch pass return an error, rather than
dropping the one bad key and succeeding with the RSA key's
expansion. -/
theorem mapMissingAlgorithms_failure_counterexample :
    mapMissingAlgorithms [badOctKey, goodRsaKey] =
      Except.error (KeyError.unsupportedKeyType (KeyType.otherType "oct")) := rfl

/-- C2 amended: when any key with no declared algorithm in the fetched
set fails algorithm inference, the post-fetch pass aborts with an
error — the failure is fatal to the whole refresh, and no set built
from the remaining keys is produced. -/
theorem mapMissingAlgorithms_inference_failure_fatal (l : List Key) (k : Key)
    (e : KeyError) (hk : k ∈ l) (ha : k.alg = "")
    (he : keyToAlgs k = Except.error e) :
    ∃ e2, mapMissingAlgorithms l = Except.error e2 := by
  induction l with
  | nil => cases hk
  | cons head rest ih =>
    by_cases hhead : head.alg ≠ ""
    · have hk2 : k ∈ rest := by
        rcases List.mem_cons.mp hk with rfl | hk2
        · exact absurd ha hhead
        · exact hk2
      obtain ⟨e2, he2⟩ := ih hk2
      exact ⟨e2, by simp [mapMissingAlgorithms, hhead, he2]⟩
    · push_neg at hhead
      cases hke : keyToAlgs head with
      | error e3 => exact ⟨e3, by simp [mapMissingAlgorithms, hhead, hke]⟩
      | ok algs =>
        have hk2 : k ∈ rest := by
          rcases List.mem_cons.mp hk with rfl | hk2
          · rw [he] at hke; cases hke
          · exact hk2
        obtain ⟨e2, he2⟩ := ih hk2
        exact ⟨e2, by simp [mapMissingAlgorithms, hhead, hke, he2]⟩

/-- Witness for mapMissingAlgorithms_inference_failure_fatal at the
concrete unsupported key. -/
theorem mapMissingAlgorithms_inference_failure_fatal_witness :
    ∃ e2, mapMissingAlgorithms [badOctKey] = Except.error e2 :=
  mapMissingAlgorithms_inference_failure_fatal [badOctKey] badOctKey
    (KeyError.unsupportedKeyType (KeyType.otherType "oct"))
    (by simp) rfl rfl

/-- C1: the capability authorization check on jwt claims accepts
whenever no capabilities are required; otherwise it accepts exactly
when some capability declared by the token equals one of the required
capabilities, and a non-empty required set disjoint from the token's
capabilities is rejected with ErrUnauthorized. -/
theorem jwtValid_capability_check (cfg : JWT) (caps : List String) :
    (cfg.requiredServiceCapabilities = [] →
      JWT.valid cfg (Token.jwtClaims caps) = none) ∧
    (cfg.requiredServiceCapabilities ≠ [] →
      (JWT.valid cfg (Token.jwtClaims caps) = none ↔
        ∃ c ∈ caps, c ∈ cfg.requiredServiceCapabilities)) ∧
    (cfg.requiredServiceCapabilities ≠ [] →
      (¬ ∃ c ∈ caps, c ∈ cfg.requiredServiceCapabilities) →
      JWT.valid cfg (Token.jwtClaims caps) = some AuthError.unauthorized) := by
  have hcond :
      (caps.any (fun capability => cfg.requiredServiceCapabilities.any
        (fun serviceCapability => capability = serviceCapability)) = true) ↔
      ∃ c ∈ caps, c ∈ cfg.requiredServiceCapabilities := by
    simp [List.any_eq_true]
  refine ⟨fun h => by simp [JWT.valid, h], fun h => ?_, fun h hn => ?_⟩
  · rw [← hcond]
    by_cases hm : caps.any (fun capability => cfg.requiredServiceCapabilities.any
        (fun serviceCapability => capability = serviceCapability)) = true
    · simp [JWT.valid, h, hm]
    · simp [JWT.valid, h, hm]
  · rw [← hcond] at hn
    simp [JWT.valid, h, hn]

/-- Witness for jwtValid_capability_check: requiring read while the
token only declares write is rejected as unauthorized. -/
theorem jwtValid_capability_check_witness :
    JWT.valid { keyProvider := sampleProvider, requiredServiceCapabilities := ["read"] }
      (Token.jwtClaims ["write"]) = some AuthError.unauthorized :=
  (jwtValid_capability_check
      { keyProvider := sampleProvider, requiredServiceCapabilities := ["read"] }
      ["write"]).2.2 (by decide) (by decide)

/-- C3: when one refresh attempt fails, by transport or parse failure
of the fetch or by a post-fetch processing error, the provider state
is exactly as before the attempt, so currentKeySet keeps returning the
prior snapshot, never partially overwritten or emptied. -/
theorem refreshStep_failure_keeps_snapshot (st : ProviderState) (d : Bool)
    (fetched : Except FetchError (List Key)) (e : RefreshError)
    (h : refreshResult d fetched = Except.error e) :
    refreshStep st d fetched = st ∧
    currentKeySet (refreshStep st d fetched) = currentKeySet st := by
  have hstep : refreshStep st d fetched = st := by
    unfold refreshStep
    rw [h]
  exact ⟨hstep, by rw [hstep]⟩

/-- Witness for refreshStep_failure_keeps_snapshot: a transport
failure leaves a concrete one-key snapshot in place. -/
theorem refreshStep_failure_keeps_snapshot_witness :
    refreshStep { snapshot := some [goodRsaKey] } false
        (Except.error FetchError.transport) =
      { snapshot := some [goodRsaKey] } :=
  (refreshStep_failure_keeps_snapshot { snapshot := some [goodRsaKey] } false
      (Except.error FetchError.transport)
      (RefreshError.fetchFailed FetchError.transport) rfl).1

/-- C7: construction rejects with ErrInvalidConfig exactly the invalid
configurations: Disable set together with any other field, or the
all-zero configuration; the disable-only configuration and any
configuration with disable off and a non-nil basic table or a key
provider URL construct without a configuration error, and no error
other than ErrInvalidConfig is produced by validation. -/
theorem new_invalidConfig_characterization (c : Config) :
    (New c = Except.error AuthError.invalidConfig ↔
      ((c.disable = true ∧ c ≠ Config.disabledOnly) ∨ c = Config.zero)) ∧
    (c = Config.disabledOnly → ∃ m, New c = Except.ok m) ∧
    (c.disable = false → (c.basic ≠ none ∨ c.jwt.keyProvider.url ≠ "") →
      ∃ m, New c = Except.ok m) ∧
    (∀ e, New c = Except.error e → e = AuthError.invalidConfig) := by
  have hzero_ne : Config.disabledOnly ≠ Config.zero := by decide
  have hv : ∀ e, validateConfig c = some e → e = AuthError.invalidConfig := by
    intro e he
    unfold validateConfig at he
    split_ifs at he <;> simp_all
  have hiff : validateConfig c = some AuthError.invalidConfig ↔
      ((c.disable = true ∧ c ≠ Config.disabledOnly) ∨ c = Config.zero) := by
    unfold validateConfig
    split_ifs with h1 h2
    · exact ⟨fun _ => Or.inl h1, fun _ => rfl⟩
    · exact ⟨fun _ => Or.inr h2, fun _ => rfl⟩
    · constructor
      · intro h3
        exact h3.elim
      · intro h3
        rcases h3 with h3 | h3
        · exact absurd h3 h1
        · exact absurd h3 h2
  refine ⟨?_, ?_, ?_, ?_⟩
  · rw [← hiff]
    unfold New
    cases hvc : validateConfig c with
    | none => simp [hvc]
    | some e =>
      have := hv e hvc
      subst this
      simp [hvc]
  · intro h
    subst h
    exact ⟨installedScheme Config.disabledOnly, by rfl⟩
  · intro hd hbu
    have h1 : ¬ (Config.disabledOnly.disable = false) := by decide
    have hne : c ≠ Config.zero := by
      intro h
      subst h
      rcases hbu with hb | hu
      · exact hb rfl
      · exact hu rfl
    have hvc : validateConfig c = none := by
      unfold validateConfig
      rw [if_neg, if_neg hne]
      intro hcontra
      rw [hd] at hcontra
      exact absurd hcontra.1 (by simp)
    exact ⟨installedScheme c, by unfold New; rw [hvc]⟩
  · intro e he
    unfold New at he
    cases hvc : validateConfig c with
    | none =>
      rw [hvc] at he
      exact Except.noConfusion he
    | some e2 =>
      rw [hvc] at he
      injection he with h3
      rw [h3] at hvc
      exact hv e hvc

/-- Witness for new_invalidConfig_characterization: a configuration
with disable set and a basic table is rejected with ErrInvalidConfig,
and the disable-only configuration is accepted. -/
theorem new_invalidConfig_characterization_witness :
    New { Config.disabledOnly with basic := some [("alice", "secret")] } =
      Except.error AuthError.invalidConfig ∧
    ∃ m, New Config.disabledOnly = Except.ok m :=
  ⟨(new_invalidConfig_characterization
      { Config.disabledOnly with basic := some [("alice", "secret")] }).1.mpr
      (Or.inl ⟨rfl, by decide⟩),
   (new_invalidConfig_characterization Config.disabledOnly).2.1 rfl⟩

/-- C8: basic credential validation accepts exactly the pairs that
match some table entry, every failure is the single value
ErrBadCredentials, and any two non-matching pairs — unknown username
or wrong password alike — produce the same result, so the caller
cannot tell the two failure causes apart. -/
theorem basicValid_characterization (cfg : Basic) (u p : String) :
    (Basic.valid cfg (Token.basic u p) = none ↔
      ∃ entry ∈ cfg, u = entry.1 ∧ p = entry.2) ∧
    (Basic.valid cfg (Token.basic u p) = none ∨
      Basic.valid cfg (Token.basic u p) = some AuthError.badCredentials) ∧
    (∀ u2 p2 : String,
      (¬ ∃ entry ∈ cfg, u = entry.1 ∧ p = entry.2) →
      (¬ ∃ entry ∈ cfg, u2 = entry.1 ∧ p2 = entry.2) →
      Basic.valid cfg (Token.basic u p) = Basic.valid cfg (Token.basic u2 p2)) := by
  have hmem : ∀ u3 p3 : String,
      (∃ entry ∈ cfg, u3 = entry.1 ∧ p3 = entry.2) ↔ (u3, p3) ∈ cfg := by
    intro u3 p3
    constructor
    · rintro ⟨⟨a, b⟩, hab, rfl, rfl⟩
      exact hab
    · intro h3
      exact ⟨(u3, p3), h3, rfl, rfl⟩
  have hval : ∀ u3 p3 : String,
      Basic.valid cfg (Token.basic u3 p3) =
        if (u3, p3) ∈ cfg then none else some AuthError.badCredentials := by
    intro u3 p3
    simp [Basic.valid]
  refine ⟨?_, ?_, ?_⟩
  · rw [hval u p, hmem u p]
    by_cases hm : (u, p) ∈ cfg
    · simp [hm]
    · simp [hm]
  · rw [hval u p]
    by_cases hm : (u, p) ∈ cfg
    · exact Or.inl (by simp [hm])
    · exact Or.inr (by simp [hm])
  · intro u2 p2 h1 h2
    rw [hmem u p] at h1
    rw [hmem u2 p2] at h2
    rw [hval u p, hval u2 p2, if_neg h1, if_neg h2]

/-- Witness for basicValid_characterization: with the table holding
alice's password, the matching pair is accepted, and a wrong password
and an unknown username are both rejected with the same
ErrBadCredentials value. -/
theorem basicValid_characterization_witness :
    Basic.valid [("alice", "secret")] (Token.basic "alice" "secret") = none ∧
    Basic.valid [("alice", "secret")] (Token.basic "alice" "wrong") =
      Basic.valid [("alice", "secret")] (Token.basic "mallory" "secret") := by
  constructor
  · exact (basicValid_characterization [("alice", "secret")] "alice" "secret").1.mpr
      ⟨("alice", "secret"), by simp⟩
  · exact (basicValid_characterization [("alice", "secret")] "alice" "wrong").2.2
      "mallory" "secret" (by decide) (by decide)

/-- C9: with no middleware installed, Then returns the protected
handler itself, so every request is forwarded to it unconditionally
and this layer writes nothing. -/
theorem authThen_no_middleware (auth : Auth) (h : Handler)
    (hm : auth.middleware = none) :
    Auth.Then auth h = h := by
  unfold Auth.Then
  rw [hm]

/-- Witness for authThen_no_middleware: a disabled Auth returns the
concrete handler unchanged. -/
theorem authThen_no_middleware_witness :
    Auth.Then { middleware := none, config := Config.disabledOnly }
      (fun _ => { code := 200 }) = (fun _ => { code := 200 }) :=
  authThen_no_middleware { middleware := none, config := Config.disabledOnly }
    (fun _ => { code := 200 }) rfl

/-- C10: when the basic table is non-nil and the jwt key provider URL
is non-empty, a construction that passes validation installs the jwt
middleware: the basic middleware assigned first is overwritten, so the
configuration authenticates only bearer tokens. -/
theorem new_both_schemes_jwt_precedence (c : Config)
    (hb : c.basic ≠ none) (hu : c.jwt.keyProvider.url ≠ "")
    (hd : c.disable = false) :
    New c = Except.ok (some Scheme.jwtScheme) := by
  have hne : c ≠ Config.zero := by
    intro h
    subst h
    exact hb rfl
  have hvc : validateConfig c = none := by
    unfold validateConfig
    rw [if_neg, if_neg hne]
    intro hcontra
    rw [hd] at hcontra
    exact absurd hcontra.1 (by simp)
  unfold New
  rw [hvc]
  unfold installedScheme
  simp [hb, hu]

/-- Witness for new_both_schemes_jwt_precedence at a concrete
configuration with both schemes populated. -/
theorem new_both_schemes_jwt_precedence_witness :
    New { disable := false
          basic := some [("alice", "secret")]
          jwt := { keyProvider := sampleProvider
                   requiredServiceCapabilities := [] } } =
      Except.ok (some Scheme.jwtScheme) :=
  new_both_schemes_jwt_precedence
    { disable := false
      basic := some [("alice", "secret")]
      jwt := { keyProvider := sampleProvider
               requiredServiceCapabilities := [] } }
    (by decide) (by decide) rfl

end Skeleton
